import Mathlib

/-!
Verification of the resilient pixel-data decoding engine of
`app/core/dicom_io.py` (class `DicomFile`): the sample reconstructor,
the manual binary tag scanner, the decode-strategy cascade and retry
controller of `get_pixel_array`, and the picture-UID write path.

Bytes are modelled as natural numbers (values of Python `bytes`
elements, each < 256 in any real file); byte streams as `List Nat`.
Fallible code is Except-valued: a Python path that produces no raster
and falls through is an `Except.error`.
-/

/-- Little-endian 16-bit value of the first two bytes of a list
(mirrors `struct.unpack` of format `<H`). -/
def le16 (l : List Nat) : Nat := l.getD 0 0 + 256 * l.getD 1 0

/-- Little-endian 32-bit value of the first four bytes of a list
(mirrors `struct.unpack` of format `<I`). -/
def le32 (l : List Nat) : Nat :=
  l.getD 0 0 + 256 * l.getD 1 0 + 65536 * l.getD 2 0 + 16777216 * l.getD 3 0

/-- Reading `n` bytes from position `pos` of a byte stream: returns the
available bytes, possibly fewer than `n` (Python `file.read` semantics). -/
def readBytes (file : List Nat) (pos n : Nat) : List Nat := (file.drop pos).take n

/-- Interpretation of a byte list as unsigned little-endian 16-bit samples
(mirrors `np.frombuffer(..., dtype=np.uint16)` on a little-endian host).
A trailing odd byte is dropped; the reconstructor only ever passes buffers
of even length when this is used. -/
def toU16LE : List Nat → List Nat
  | b0 :: b1 :: rest => (b0 + 256 * b1) :: toU16LE rest
  | _ => []

/-- Encoding of 16-bit sample values back to little-endian bytes (used to
state the round-trip property of the reconstructor). -/
def encodeU16LE : List Nat → List Nat
  | [] => []
  | v :: rest => v % 256 :: v / 256 :: encodeU16LE rest

/-- Byte encoding of samples at a given bit depth: identity for 8-bit,
little-endian pairs for 16-bit. -/
def encodeBytes (bits : Nat) (vals : List Nat) : List Nat :=
  if bits = 16 then encodeU16LE vals else vals

/-- Pixel raster: a typed numpy array abstracted to its shape, its flat
element list, and whether its dtype is uint16 (`True`) or uint8 (`False`). -/
structure Raster where
  shape : List Nat
  data : List Nat
  sixteenBit : Bool
deriving DecidableEq

/-- Element count of a raster, as `numpy`'s `arr.size` (product of the shape). -/
def Raster.size (r : Raster) : Nat := r.shape.prod

/-- Failure modes of sample reconstruction. `insufficientData` is the
fall-through of the source's `len(pixel_data) >= expected_size` guard;
`badReshape` is numpy's `reshape` ValueError; `oddBuffer` is numpy's
`frombuffer` error on a buffer not divisible by the item size.
`unsupportedDepth` is the error the specification names for depths outside
8 and 16; it is declared so the claim can be stated, and the reconstruction
code never produces it. -/
inductive RecErr where
  | insufficientData
  | badReshape
  | oddBuffer
  | unsupportedDepth
deriving DecidableEq

/-- Reshape of a flat element list to `(rows, cols)` when
`samples_per_pixel == 1`, else `(rows, cols, samples)`; fails when the
element count does not match the requested shape (numpy semantics of the
source's `pixel_array.reshape(...)` calls). -/
def reshapeArr (elems : List Nat) (rows cols samples : Nat) (six : Bool) :
    Except RecErr Raster :=
  if samples = 1 then
    if elems.length = rows * cols then Except.ok ⟨[rows, cols], elems, six⟩
    else Except.error RecErr.badReshape
  else
    if elems.length = rows * cols * samples then
      Except.ok ⟨[rows, cols, samples], elems, six⟩
    else Except.error RecErr.badReshape

/-- Sample reconstruction from raw pixel bytes, as written twice in
`DicomFile._read_ultra_conservative` (the dataset fallback at lines
415-433 and the manual-scan fallback at lines 597-618):
`dtype = np.uint16 if bits == 16 else np.uint8`,
`expected_size = rows * cols * samples * (bits // 8)`, a
`len(pixel_data) >= expected_size` guard, `np.frombuffer` on
`pixel_data[:expected_size]`, and a reshape per `samples_per_pixel`. -/
def reconstructSamples (pd : List Nat) (rows cols bits samples : Nat) :
    Except RecErr Raster :=
  let expected := rows * cols * samples * (bits / 8)
  if pd.length < expected then Except.error RecErr.insufficientData
  else
    let buf := pd.take expected
    if bits = 16 then
      if expected % 2 = 0 then reshapeArr (toU16LE buf) rows cols samples true
      else Except.error RecErr.oddBuffer
    else reshapeArr buf rows cols samples false

theorem toU16LE_length (l : List Nat) : (toU16LE l).length = l.length / 2 := by
  match l with
  | [] => simp [toU16LE]
  | [b] => simp [toU16LE]
  | b0 :: b1 :: rest =>
    have ih := toU16LE_length rest
    simp only [toU16LE, List.length_cons, ih]
    omega

theorem encode_toU16LE (l : List Nat) (heven : l.length % 2 = 0)
    (hb : ∀ x ∈ l, x < 256) : encodeU16LE (toU16LE l) = l := by
  match l with
  | [] => simp [toU16LE, encodeU16LE]
  | [b] => simp at heven
  | b0 :: b1 :: rest =>
    have hb0 : b0 < 256 := hb b0 (by simp)
    have h1 : (b0 + 256 * b1) % 256 = b0 := by
      rw [Nat.add_mul_mod_self_left]; exact Nat.mod_eq_of_lt hb0
    have h2 : (b0 + 256 * b1) / 256 = b1 := by
      rw [Nat.add_mul_div_left _ _ (by norm_num)]
      simp [Nat.div_eq_of_lt hb0]
    have ih := encode_toU16LE rest (by simp at heven; omega)
      (fun x hx => hb x (by simp [hx]))
    simp only [toU16LE, encodeU16LE, h1, h2, ih]

/-- C3: for every reconstruction input, raw bytes shorter than
`rows * cols * samples * (bits/8)` make reconstruction fail with
`InsufficientDataError` (no truncated or padded raster is ever returned),
and every raster the reconstructor does produce has element count exactly
`rows * cols * samples` (both as flat data length and as shape product). -/
theorem c3_insufficient_and_element_count (pd : List Nat) (r c b s : Nat) :
    (pd.length < r * c * s * (b / 8) →
      reconstructSamples pd r c b s = Except.error RecErr.insufficientData)
    ∧ (∀ ra : Raster, reconstructSamples pd r c b s = Except.ok ra →
        ra.data.length = r * c * s ∧ ra.shape.prod = r * c * s) := by
  constructor
  · intro h
    simp only [reconstructSamples]
    rw [if_pos h]
  · intro ra hra
    simp only [reconstructSamples] at hra
    by_cases hlen : pd.length < r * c * s * (b / 8)
    · rw [if_pos hlen] at hra; exact absurd hra (by simp)
    · rw [if_neg hlen] at hra
      by_cases h16 : b = 16
      · rw [if_pos h16] at hra
        by_cases he : r * c * s * (b / 8) % 2 = 0
        · rw [if_pos he] at hra
          simp only [reshapeArr] at hra
          by_cases hs1 : s = 1
          · rw [if_pos hs1] at hra
            by_cases hc1 : (toU16LE (pd.take (r * c * s * (b / 8)))).length = r * c
            · rw [if_pos hc1] at hra
              cases hra
              constructor
              · simpa [hs1] using hc1
              · simp [Raster.size, hs1]
            · rw [if_neg hc1] at hra; exact absurd hra (by simp)
          · rw [if_neg hs1] at hra
            by_cases hc1 :
                (toU16LE (pd.take (r * c * s * (b / 8)))).length = r * c * s
            · rw [if_pos hc1] at hra
              cases hra
              exact ⟨hc1, by simp [Raster.size, Nat.mul_assoc]⟩
            · rw [if_neg hc1] at hra; exact absurd hra (by simp)
        · rw [if_neg he] at hra; exact absurd hra (by simp)
      · rw [if_neg h16] at hra
        simp only [reshapeArr] at hra
        by_cases hs1 : s = 1
        · rw [if_pos hs1] at hra
          by_cases hc1 : (pd.take (r * c * s * (b / 8))).length = r * c
          · rw [if_pos hc1] at hra
            cases hra
            constructor
            · simpa [hs1] using hc1
            · simp [Raster.size, hs1]
          · rw [if_neg hc1] at hra; exact absurd hra (by simp)
        · rw [if_neg hs1] at hra
          by_cases hc1 : (pd.take (r * c * s * (b / 8))).length = r * c * s
          · rw [if_pos hc1] at hra
            cases hra
            exact ⟨hc1, by simp [Raster.size, Nat.mul_assoc]⟩
          · rw [if_neg hc1] at hra; exact absurd hra (by simp)

theorem c3_witness :
    reconstructSamples [9] 2 2 8 1 = Except.error RecErr.insufficientData
    ∧ ([1, 2, 3, 4].length = 2 * 2 * 1 ∧ ([2, 2] : List Nat).prod = 2 * 2 * 1) :=
  ⟨(c3_insufficient_and_element_count [9] 2 2 8 1).1 (by decide),
   (c3_insufficient_and_element_count [1, 2, 3, 4] 2 2 8 1).2
     ⟨[2, 2], [1, 2, 3, 4], false⟩ rfl⟩

/-- C4: for valid geometry (rows, cols positive, depth 8 or 16, samples 1
or 3) and raw bytes of exactly the expected size, reconstruction returns a
raster shaped `(rows, cols)` for one sample per pixel and
`(rows, cols, samples)` otherwise, whose elements are exactly the bytes
interpreted as unsigned 8-bit or little-endian 16-bit values, and
re-encoding those samples recovers the input bytes (round trip, no data
loss). -/
theorem c4_exact_size_roundtrip (pd : List Nat) (r c b s : Nat)
    (hb : b = 8 ∨ b = 16) (hs : s = 1 ∨ s = 3) (hr : 0 < r) (hc : 0 < c)
    (hlen : pd.length = r * c * s * (b / 8)) (hbytes : ∀ x ∈ pd, x < 256) :
    reconstructSamples pd r c b s =
      Except.ok ⟨if s = 1 then [r, c] else [r, c, s],
        if b = 16 then toU16LE pd else pd, b == 16⟩
    ∧ encodeBytes b (if b = 16 then toU16LE pd else pd) = pd := by
  have hnlt : ¬ pd.length < r * c * s * (b / 8) := by omega
  have htake : pd.take (r * c * s * (b / 8)) = pd := by
    rw [← hlen]; exact List.take_length pd
  rcases hb with hb | hb
  · subst hb
    constructor
    · rcases hs with hs | hs <;> subst hs <;>
        simp_all [reconstructSamples, reshapeArr]
    · simp [encodeBytes]
  · subst hb
    have heven : r * c * s * (16 / 8) % 2 = 0 := by
      simp [Nat.mul_mod]
    have hlen16 : (toU16LE pd).length = r * c * s := by
      rw [toU16LE_length, hlen]; omega
    constructor
    · rcases hs with hs | hs <;> subst hs
      · have hlen2 : pd.length = r * c * 2 := by simpa using hlen
        have ht : List.take (r * c * 2) pd = pd := by
          rw [← hlen2]; exact List.take_length pd
        simp [reconstructSamples, reshapeArr, ht, hlen2, hlen16]
      · have hlen2 : pd.length = r * c * 3 * 2 := by simpa using hlen
        have ht : List.take (r * c * 3 * 2) pd = pd := by
          rw [← hlen2]; exact List.take_length pd
        simp [reconstructSamples, reshapeArr, ht, hlen2, hlen16]
    · simp only [encodeBytes, reduceIte]
      exact encode_toU16LE pd (by rw [hlen]; simp [Nat.mul_mod]) hbytes

theorem c4_witness :
    reconstructSamples [0, 64, 128, 255] 2 2 8 1 =
      Except.ok ⟨[2, 2], [0, 64, 128, 255], false⟩ := by
  have h := c4_exact_size_roundtrip [0, 64, 128, 255] 2 2 8 1 (Or.inl rfl)
    (Or.inl rfl) (by decide) (by decide) (by decide) (by decide)
  simpa using h.1

/-- Predicate on probe bytes stated by the specification: the element is
explicit value-representation when the two probe bytes are two UPPERCASE
ASCII letters. Declared from the specification's words for comparison
against the code's actual check. -/
def claimUppercaseProbe (b0 b1 : Nat) : Bool :=
  (65 ≤ b0 && b0 ≤ 90) && (65 ≤ b1 && b1 ≤ 90)

/-- ASCII alphabetic test on a byte: the bytes on which Python's
`str.isalpha` holds after a successful `decode('ascii')`. -/
def isAsciiLetter (b : Nat) : Bool :=
  (65 ≤ b && b ≤ 90) || (97 ≤ b && b ≤ 122)

/-- Probe test actually performed at lines 522-524 of the source:
`vr_bytes.decode('ascii')` succeeds when both bytes are below 128, and
then `vr.isalpha() and len(vr) == 2` requires both characters alphabetic.
Decode failure falls to the bare except and is treated as implicit. -/
def probeIsExplicit (b0 b1 : Nat) : Bool :=
  b0 < 128 && b1 < 128 && isAsciiLetter b0 && isAsciiLetter b1

/-- Value representations that carry a 2-byte reserved field and a 4-byte
length in explicit mode: OB, OW, OF, SQ, UT, UN (line 526). -/
def isLongVR (b0 b1 : Nat) : Bool :=
  (b0 == 79 && (b1 == 66 || b1 == 87 || b1 == 70)) ||
  (b0 == 83 && b1 == 81) || (b0 == 85 && (b1 == 84 || b1 == 78))

/-- C5 counterexample: bits-allocated 12 is neither 8 nor 16, yet sample
reconstruction returns a raster (the code selects uint8 for every depth
other than 16 and has no depth check), instead of failing with
`UnsupportedDepthError` as the claim states. -/
theorem c5_counterexample :
    ((12 : Nat) ≠ 8 ∧ (12 : Nat) ≠ 16)
    ∧ reconstructSamples [7] 1 1 12 1 = Except.ok ⟨[1, 1], [7], false⟩ :=
  ⟨by decide, rfl⟩

/-- C5 amended: sample reconstruction never fails with
`UnsupportedDepthError` on any input; every depth other than 16 is
interpreted as unsigned 8-bit, so in particular any depth `b` with
`b / 8 = 1` (such as 9..15) behaves exactly like depth 8 and does
produce rasters. -/
theorem c5_amended_no_depth_check (pd : List Nat) (r c b s : Nat) :
    reconstructSamples pd r c b s ≠ Except.error RecErr.unsupportedDepth
    ∧ (b ≠ 16 → b / 8 = 1 → reconstructSamples pd r c b s =
        reconstructSamples pd r c 8 s) := by
  constructor
  · simp only [reconstructSamples, reshapeArr]
    split
    · simp
    · split
      · split
        · split <;> split <;> simp
        · simp
      · split <;> split <;> simp
  · intro h16 hdiv
    simp only [reconstructSamples, hdiv, if_neg h16]
    norm_num

theorem c5_witness :
    reconstructSamples [7] 1 1 12 1 = reconstructSamples [7] 1 1 8 1 :=
  (c5_amended_no_depth_check [7] 1 1 12 1).2 (by decide) (by decide)

/-- State accumulated by the manual binary Tag Scanner of
`_read_ultra_conservative` (lines 493-494 of the source): the optional
rows, columns, bits-allocated, samples-per-pixel values and the captured
pixel-data bytes. -/
structure ScanState where
  rows : Option Nat
  cols : Option Nat
  bitsAllocated : Option Nat
  samplesPerPixel : Option Nat
  pixelData : Option (List Nat)
deriving DecidableEq

/-- Initial scanner state: nothing found yet. -/
def initScan : ScanState := ⟨none, none, none, none, none⟩

/-- Outcome of one iteration of the scanner loop: either stop scanning
(`brk`, a Python `break` or loop exit) or continue at a new stream
position with an updated state. -/
inductive StepRes where
  | brk (st : ScanState)
  | cont (pos : Nat) (st : ScanState)
deriving DecidableEq

/-- Length decoding for one element, from the position directly after the
4-byte tag (lines 516-550): probe 2 bytes; when they decode as two ASCII
alphabetic characters the element is explicit — long VRs skip a 2-byte
reserved field and read a 4-byte length, the rest read a 2-byte length;
otherwise (including ASCII decode failure on a byte at or above 128) seek
back 2 bytes and read a 4-byte implicit length. Returns the length and the
position of the element value, or `none` when the stream ends inside the
length field (the source breaks out of the loop). -/
def decodeLength (file : List Nat) (p : Nat) : Option (Nat × Nat) :=
  let vrBytes := readBytes file p 2
  if vrBytes.length < 2 then none
  else
    let b0 := vrBytes.getD 0 0
    let b1 := vrBytes.getD 1 0
    if probeIsExplicit b0 b1 then
      if isLongVR b0 b1 then
        let p3 := p + 2 + (readBytes file (p + 2) 2).length
        let lb := readBytes file p3 4
        if lb.length < 4 then none else some (le32 lb, p3 + 4)
      else
        let lb := readBytes file (p + 2) 2
        if lb.length < 2 then none else some (le16 lb, p + 2 + 2)
    else
      let lb := readBytes file p 4
      if lb.length < 4 then none else some (le32 lb, p + 4)

/-- Capture of a 2-byte geometry value (the `struct.unpack('<H', f.read(2))`
pattern of lines 559-578): when the declared length is 2 read the value,
with a truncated read raising and being caught by the per-element handler
(which seeks to `current_pos + 8` and continues); any other length seeks
past the value. -/
def captureU16 (file : List Nat) (pos vp len : Nat) (st : ScanState)
    (set : ScanState → Nat → ScanState) : StepRes :=
  if len = 2 then
    let vb := readBytes file vp 2
    if vb.length < 2 then StepRes.cont (pos + 8) st
    else StepRes.cont (vp + 2) (set st (le16 vb))
  else StepRes.cont (vp + len) st

/-- One iteration of the manual Tag Scanner loop (lines 503-594): read the
4-byte tag, decode the element length, skip undefined-length elements by a
fixed 8-byte lookahead, capture the five tags of interest, bound the
pixel-data capture and the skip of any other element by 100 MiB, and stop
on absurd lengths. -/
def scanStep (file : List Nat) (pos : Nat) (st : ScanState) : StepRes :=
  let tagBytes := readBytes file pos 4
  if tagBytes.length < 4 then StepRes.brk st
  else
    let group := le16 tagBytes
    let elem := le16 (tagBytes.drop 2)
    match decodeLength file (pos + 4) with
    | none => StepRes.brk st
    | some (len, vp) =>
      if len = 4294967295 then StepRes.cont (vp + 8) st
      else if group = 40 ∧ elem = 16 then
        captureU16 file pos vp len st (fun st v => { st with rows := some v })
      else if group = 40 ∧ elem = 17 then
        captureU16 file pos vp len st (fun st v => { st with cols := some v })
      else if group = 40 ∧ elem = 256 then
        captureU16 file pos vp len st
          (fun st v => { st with bitsAllocated := some v })
      else if group = 40 ∧ elem = 2 then
        captureU16 file pos vp len st
          (fun st v => { st with samplesPerPixel := some v })
      else if group = 32736 ∧ elem = 16 then
        if 0 < len ∧ len < 104857600 then
          StepRes.brk { st with pixelData := some (readBytes file vp len) }
        else StepRes.brk st
      else
        if 0 < len ∧ len < 104857600 then StepRes.cont (vp + len) st
        else StepRes.brk st

/-- Scanner driver loop (line 503: `while f.tell() < file_size - 8`),
written with fuel for structural recursion; `file.length` fuel is ample
because every continuing iteration advances the position by at least 8
bytes. -/
def scanLoop (file : List Nat) : Nat → Nat → ScanState → ScanState
  | 0, _, st => st
  | fuel + 1, pos, st =>
    if pos + 8 < file.length then
      match scanStep file pos st with
      | StepRes.brk st' => st'
      | StepRes.cont pos' st' => scanLoop file fuel pos' st'
    else st

/-- Whole-file manual scan: skip the 128-byte preamble plus the 4-byte
signature (`f.seek(132)`) and run the loop. -/
def scanFile (file : List Nat) : ScanState :=
  scanLoop file file.length 132 initScan

/-- Python `x or d` on an optional integer: the default applies when the
value is missing or zero (line 599-600: `bits_allocated or 16`,
`samples_per_pixel or 1`). -/
def orDefault (x : Option Nat) (d : Nat) : Nat :=
  match x with
  | none => d
  | some v => if v = 0 then d else v

/-- Error of the manual tier: the final
`raise Exception("Could not extract pixel data with ultra-conservative
approach")` reached whenever the scan or the reconstruction does not
produce a raster. -/
inductive ManualErr where
  | couldNotExtract
deriving DecidableEq

/-- Manual binary scan tier (lines 486-625): run the Tag Scanner, then —
only when pixel data, rows and columns are all truthy — reconstruct with
bits-allocated defaulted to 16 and samples-per-pixel defaulted to 1; any
failure ends in the tier's final raise. -/
def manualScanTier (file : List Nat) : Except ManualErr Raster :=
  let st := scanFile file
  match st.pixelData, st.rows, st.cols with
  | some pd, some r, some c =>
    if pd.length ≠ 0 ∧ r ≠ 0 ∧ c ≠ 0 then
      let bits := orDefault st.bitsAllocated 16
      let samples := orDefault st.samplesPerPixel 1
      match reconstructSamples pd r c bits samples with
      | Except.ok raster => Except.ok raster
      | Except.error _ => Except.error ManualErr.couldNotExtract
    else Except.error ManualErr.couldNotExtract
  | _, _, _ => Except.error ManualErr.couldNotExtract

/-- Byte stream demonstrating the scanner's treatment of a lowercase
probe: after a 4-byte tag at position 0, the probe bytes are 97 and 98
(ASCII `a`, `b`), followed by a 2-byte length 5. -/
def lowercaseProbeFile : List Nat := [0, 0, 0, 0, 97, 98, 5, 0, 0, 0, 0, 0]

/-- C6 counterexample: the probe bytes 97, 98 are lowercase ASCII letters,
not uppercase, yet the scanner takes the explicit branch and reads a
2-byte length (value 5 ending at position 8), not the 4-byte implicit
length (value 352865) the claim requires for non-uppercase probes. -/
theorem c6_counterexample :
    claimUppercaseProbe 97 98 = false
    ∧ decodeLength lowercaseProbeFile 4 = some (5, 8)
    ∧ decodeLength lowercaseProbeFile 4 ≠ some (352865, 8) := by
  refine ⟨by decide, rfl, by decide⟩

/-- C6 amended: the encoding-mode probe treats an element as explicit iff
both probe bytes are ASCII letters of either case (the code checks
`isalpha`, not uppercase); explicit long VRs (OB/OW/OF/SQ/UT/UN) read a
2-byte reserved field then a 4-byte length, other explicit VRs read a
2-byte length, and a non-alphabetic (or undecodable, at or above 128)
probe rewinds 2 bytes and reads a 4-byte length. -/
theorem c6_amended_probe_is_alpha (file : List Nat) (p b0 b1 : Nat)
    (h : readBytes file p 2 = [b0, b1]) :
    (probeIsExplicit b0 b1 = (isAsciiLetter b0 && isAsciiLetter b1))
    ∧ (probeIsExplicit b0 b1 = true → isLongVR b0 b1 = false →
        p + 4 ≤ file.length →
        decodeLength file p = some (le16 (readBytes file (p + 2) 2), p + 4))
    ∧ (probeIsExplicit b0 b1 = true → isLongVR b0 b1 = true →
        p + 8 ≤ file.length →
        decodeLength file p = some (le32 (readBytes file (p + 4) 4), p + 8))
    ∧ (probeIsExplicit b0 b1 = false →
        p + 8 ≤ file.length →
        decodeLength file p = some (le32 (readBytes file p 4), p + 4)) := by
  refine ⟨?_, ?_, ?_, ?_⟩
  · by_cases ha : isAsciiLetter b0 = true
    · by_cases hb : isAsciiLetter b1 = true
      · have h128a : b0 < 128 := by
          simp only [isAsciiLetter, Bool.or_eq_true, Bool.and_eq_true,
            decide_eq_true_eq] at ha
          omega
        have h128b : b1 < 128 := by
          simp only [isAsciiLetter, Bool.or_eq_true, Bool.and_eq_true,
            decide_eq_true_eq] at hb
          omega
        simp [probeIsExplicit, ha, hb, h128a, h128b]
      · have hb' : isAsciiLetter b1 = false := by simpa using hb
        simp [probeIsExplicit, hb']
    · have ha' : isAsciiLetter b0 = false := by simpa using ha
      simp [probeIsExplicit, ha']
  · intro hex hlong hav
    have hr2 : (readBytes file (p + 2) 2).length = 2 := by
      simp only [readBytes, List.length_take, List.length_drop]
      omega
    simp only [decodeLength, h]
    norm_num [hex, hlong, hr2]
  · intro hex hlong hav
    have hres : (readBytes file (p + 2) 2).length = 2 := by
      simp only [readBytes, List.length_take, List.length_drop]
      omega
    have hlb : (readBytes file (p + 4) 4).length = 4 := by
      simp only [readBytes, List.length_take, List.length_drop]
      omega
    simp only [decodeLength, h]
    norm_num [hex, hlong, hres]
    rw [show p + 2 + 2 = p + 4 by omega]
    norm_num [hlb]
  · intro hex hav
    have hlb : (readBytes file p 4).length = 4 := by
      simp only [readBytes, List.length_take, List.length_drop]
      omega
    simp only [decodeLength, h]
    norm_num [hex, hlb]

theorem c6_witness :
    decodeLength [65, 66, 3, 0, 0, 0] 0 = some (3, 4) := by
  have h := (c6_amended_probe_is_alpha [65, 66, 3, 0, 0, 0] 0 65 66 rfl).2.1
    (by decide) (by decide) (by decide)
  simpa using h

/-- C7 amended: for an element whose tag is none of the five tags of
interest (and whose length is not the undefined-length sentinel), the
scanner advances the stream by the declared length only when the length
is positive and below 100 MiB and otherwise stops scanning; for the
pixel-data tag itself, a length of zero or at least 100 MiB likewise
stops the scan without capturing pixel bytes. A corrupted pixel-data
length that merely exceeds the file size while staying under 100 MiB is
NOT rejected: the read simply returns the remaining bytes (see the C7
counterexample). -/
theorem c7_amended_skip_bound (file : List Nat) (pos : Nat) (st : ScanState)
    (g0 g1 e0 e1 len vp : Nat)
    (htag : readBytes file pos 4 = [g0, g1, e0, e1])
    (hdl : decodeLength file (pos + 4) = some (len, vp))
    (hund : len ≠ 4294967295)
    (hn1 : ¬ (le16 [g0, g1] = 40 ∧ le16 [e0, e1] = 16))
    (hn2 : ¬ (le16 [g0, g1] = 40 ∧ le16 [e0, e1] = 17))
    (hn3 : ¬ (le16 [g0, g1] = 40 ∧ le16 [e0, e1] = 256))
    (hn4 : ¬ (le16 [g0, g1] = 40 ∧ le16 [e0, e1] = 2)) :
    (¬ (le16 [g0, g1] = 32736 ∧ le16 [e0, e1] = 16) →
      ((0 < len ∧ len < 104857600 →
          scanStep file pos st = StepRes.cont (vp + len) st)
       ∧ (¬ (0 < len ∧ len < 104857600) →
          scanStep file pos st = StepRes.brk st)))
    ∧ (le16 [g0, g1] = 32736 ∧ le16 [e0, e1] = 16 →
        ¬ (0 < len ∧ len < 104857600) →
        scanStep file pos st = StepRes.brk st) := by
  have hlen4 : (readBytes file pos 4).length = 4 := by rw [htag]; rfl
  have hg : le16 (readBytes file pos 4) = le16 [g0, g1] := by rw [htag]; rfl
  have he : le16 ((readBytes file pos 4).drop 2) = le16 [e0, e1] := by
    rw [htag]; rfl
  constructor
  · intro hn5
    constructor
    · intro hsane
      simp only [scanStep, hlen4, hg, he, hdl]
      rw [if_neg (by norm_num : ¬ (4 : Nat) < 4), if_neg hund, if_neg hn1,
        if_neg hn2, if_neg hn3, if_neg hn4, if_neg hn5, if_pos hsane]
    · intro hsane
      simp only [scanStep, hlen4, hg, he, hdl]
      rw [if_neg (by norm_num : ¬ (4 : Nat) < 4), if_neg hund, if_neg hn1,
        if_neg hn2, if_neg hn3, if_neg hn4, if_neg hn5, if_neg hsane]
  · intro hp hsane
    simp only [scanStep, hlen4, hg, he, hdl]
    rw [if_neg (by norm_num : ¬ (4 : Nat) < 4), if_neg hund, if_neg hn1,
      if_neg hn2, if_neg hn3, if_neg hn4, if_pos hp, if_neg hsane]

theorem c7_witness :
    scanStep [9, 0, 9, 0, 2, 0, 0, 0, 9, 9] 0 initScan =
      StepRes.cont 10 initScan := by
  have h := (c7_amended_skip_bound [9, 0, 9, 0, 2, 0, 0, 0, 9, 9] 0 initScan
    9 0 9 0 2 8 rfl rfl (by decide) (by decide) (by decide) (by decide)
    (by decide)).1 (by decide)
  exact h.1 (by decide)

/-- Synthetic container for the C7 counterexample: a 132-byte preamble
and signature region, implicit-VR elements rows = 2, columns = 2,
bits-allocated = 8, samples-per-pixel = 1, then a pixel-data element whose
4-byte length field is corrupted to 1000 — larger than the whole 184-byte
file but below the 100 MiB sanity bound — followed by only 4 actual pixel
bytes 0, 64, 128, 255. -/
def corruptLenFile : List Nat :=
  List.replicate 132 0 ++
  [40, 0, 16, 0, 2, 0, 0, 0, 2, 0] ++
  [40, 0, 17, 0, 2, 0, 0, 0, 2, 0] ++
  [40, 0, 0, 1, 2, 0, 0, 0, 8, 0] ++
  [40, 0, 2, 0, 2, 0, 0, 0, 1, 0] ++
  [224, 127, 16, 0, 232, 3, 0, 0, 0, 64, 128, 255]

set_option maxRecDepth 8192 in
/-- C7 counterexample: the container's geometry tags are intact and its
pixel-data length field declares 1000 bytes, exceeding the 184-byte file;
the claim says the Tag Scanner rejects it and no raster is produced, but
the scanner performs a short read of the 4 remaining bytes and the manual
tier returns a 2-by-2 raster. -/
theorem c7_counterexample :
    corruptLenFile.length = 184
    ∧ decodeLength corruptLenFile 176 = some (1000, 180)
    ∧ manualScanTier corruptLenFile =
        Except.ok ⟨[2, 2], [0, 64, 128, 255], false⟩ := by
  refine ⟨by decide, by decide, by rfl⟩
/-- C10: when the manual scan finds rows, columns and pixel bytes but
never finds the bits-allocated or samples-per-pixel tags, the tier
substitutes the defaults 16 and 1, and for positive geometry with at
least `rows * cols * 2` pixel bytes it still returns a raster of shape
`(rows, cols)` holding the bytes as little-endian 16-bit samples. -/
theorem c10_default_depth_reconstruction (file : List Nat) (r c : Nat)
    (pd : List Nat)
    (hrows : (scanFile file).rows = some r)
    (hcols : (scanFile file).cols = some c)
    (hbits : (scanFile file).bitsAllocated = none)
    (hsamp : (scanFile file).samplesPerPixel = none)
    (hpd : (scanFile file).pixelData = some pd)
    (hr0 : 0 < r) (hc0 : 0 < c)
    (hlen : r * c * 2 ≤ pd.length) :
    manualScanTier file =
      Except.ok ⟨[r, c], toU16LE (pd.take (r * c * 2)), true⟩ := by
  have hrc : 0 < r * c := Nat.mul_pos hr0 hc0
  have hpd0 : pd.length ≠ 0 := by omega
  have hexp : r * c * 1 * (16 / 8) = r * c * 2 := by norm_num
  have hnlt : ¬ pd.length < r * c * 1 * (16 / 8) := by rw [hexp]; omega
  have heven : r * c * 1 * (16 / 8) % 2 = 0 := by
    simp [Nat.mul_mod]
  have htlen : (toU16LE (pd.take (r * c * 1 * (16 / 8)))).length = r * c := by
    rw [toU16LE_length, List.length_take, hexp]
    omega
  simp only [manualScanTier, hpd, hrows, hcols, hbits, hsamp]
  rw [if_pos ⟨hpd0, by omega, by omega⟩]
  simp only [orDefault]
  simp only [reconstructSamples, reshapeArr]
  rw [if_neg hnlt]
  simp only [if_true]
  rw [if_pos heven, if_pos htlen, hexp]

/-- Synthetic container for the C10 witness: preamble, implicit-VR
rows = 2 and columns = 2 elements, no bits-allocated or samples-per-pixel
elements, and a pixel-data element of 8 bytes. -/
def defaultedGeomFile : List Nat :=
  List.replicate 132 0 ++
  [40, 0, 16, 0, 2, 0, 0, 0, 2, 0] ++
  [40, 0, 17, 0, 2, 0, 0, 0, 2, 0] ++
  [224, 127, 16, 0, 8, 0, 0, 0, 1, 0, 2, 0, 3, 0, 4, 0]

set_option maxRecDepth 8192 in
theorem c10_witness :
    manualScanTier defaultedGeomFile =
      Except.ok ⟨[2, 2], [1, 2, 3, 4], true⟩ := by
  have h := c10_default_depth_reconstruction defaultedGeomFile 2 2
    [1, 0, 2, 0, 3, 0, 4, 0] (by decide) (by decide) (by decide) (by decide)
    (by decide) (by decide) (by decide) (by decide)
  rw [h]
  rfl

/-- Decoding-session state of a `DicomFile` object as the retry loop sees
it: the current dataset (container handle, abstracted to an identifier)
and the cached pixel array (`self.dataset`, `self._pixel_array`). -/
structure DecodeSession where
  dataset : Option Nat
  pixelArray : Option Raster
deriving DecidableEq

/-- Outcome of invoking one decode tier: it either returns a value
(possibly `None`) or raises an exception, abstracted to a numeric code. -/
inductive TierOut where
  | ret (arr : Option Raster)
  | exc (e : Nat)
deriving DecidableEq

/-- A decode tier: one approach method. It observes and may mutate the
session state (the source tiers assign `self.dataset`). -/
abbrev Tier := DecodeSession → TierOut × DecodeSession

/-- Result of one full pass over the cascade: the successful raster if
any, the session afterwards, and the exceptions raised by tiers during
the pass, in order. -/
structure CascadeRes where
  success : Option Raster
  sess : DecodeSession
  errs : List Nat
deriving DecidableEq

/-- One pass over the tier list (lines 309-320): each tier is tried in
order; a tier succeeds when it returns a non-None array with positive
size, in which case the array is cached in `_pixel_array` and returned;
a `None` return, an empty array, or an exception advances to the next
tier; exceptions are recorded as `last_error` candidates. -/
def runCascade : List Tier → DecodeSession → CascadeRes
  | [], s => ⟨none, s, []⟩
  | t :: ts, s =>
    match t s with
    | (TierOut.ret (some a), s') =>
      if 0 < a.size then ⟨some a, { s' with pixelArray := some a }, []⟩
      else runCascade ts s'
    | (TierOut.ret none, s') => runCascade ts s'
    | (TierOut.exc e, s') =>
      let r := runCascade ts s'
      ⟨r.success, r.sess, e :: r.errs⟩

/-- Failures that could reach the caller of `get_pixel_array`:
`exhausted` is the final `raise Exception("All pixel reading attempts
failed: {last_error}")`; `tierRaised` is declared to represent a tier
exception escaping directly, which the theorems show never happens. -/
inductive DecodeFailure where
  | exhausted (lastErr : Option Nat)
  | tierRaised (e : Nat)
deriving DecidableEq

/-- The reset performed between attempts (lines 327-334):
`self.dataset = None; self._pixel_array = None`. -/
def emptySession : DecodeSession := ⟨none, none⟩

/-- Update of `last_error` after a cascade pass: the last exception of
the pass if there was one, else the previous value. -/
def lastErrUpdate (le : Option Nat) (errs : List Nat) : Option Nat :=
  match errs.getLast? with
  | some e => some e
  | none => le

/-- The retry loop of `get_pixel_array` (lines 291-338) with the given
number of attempts remaining: run the cascade; on success return the
raster; otherwise reset the session to empty and retry, and after the
final attempt raise the exhaustion error carrying `last_error`. Returns
the result, the session at the start of each attempt, and all tier
exceptions observed in order. -/
def runAttempts (tiers : List Tier) :
    Nat → DecodeSession → Option Nat →
      Except DecodeFailure Raster × List DecodeSession × List Nat
  | 0, _, le => (Except.error (DecodeFailure.exhausted le), [], [])
  | n + 1, s, le =>
    let r := runCascade tiers s
    let le2 := lastErrUpdate le r.errs
    match r.success with
    | some a => (Except.ok a, [s], r.errs)
    | none =>
      if n = 0 then (Except.error (DecodeFailure.exhausted le2), [s], r.errs)
      else
        let rest := runAttempts tiers n emptySession le2
        (rest.1, s :: rest.2.1, r.errs ++ rest.2.2)

/-- Entry point `get_pixel_array`: return the cached array when present,
else run up to `max_attempts = 3` cascade attempts. -/
def getPixelArray (tiers : List Tier) (s : DecodeSession) :
    Except DecodeFailure Raster × List DecodeSession × List Nat :=
  match s.pixelArray with
  | some a => (Except.ok a, [], [])
  | none => runAttempts tiers 3 s none

theorem lastErrUpdate_append (le : Option Nat) (x y : List Nat) :
    lastErrUpdate le (x ++ y) = lastErrUpdate (lastErrUpdate le x) y := by
  unfold lastErrUpdate
  rw [List.getLast?_append]
  rcases hy : y.getLast? with _ | e
  · simp [hy]
  · simp [hy]

theorem runAttempts_starts (tiers : List Tier) (n : Nat) (s : DecodeSession)
    (le : Option Nat) :
    (runAttempts tiers n s le).2.1 = [] ∨
      ∃ k, (runAttempts tiers n s le).2.1 = s :: List.replicate k emptySession
        ∧ k + 1 ≤ n := by
  match n with
  | 0 => left; rfl
  | m + 1 =>
    simp only [runAttempts]
    rcases hs : (runCascade tiers s).success with _ | a
    · simp only [hs]
      by_cases hm : m = 0
      · right; exact ⟨0, by simp [hm], by omega⟩
      · rw [if_neg hm]
        right
        have ih := runAttempts_starts tiers m emptySession
          (lastErrUpdate le (runCascade tiers s).errs)
        rcases ih with ih | ⟨k, ih, hk⟩
        · exact ⟨0, by simp [ih], by omega⟩
        · refine ⟨k + 1, ?_, by omega⟩
          simp [ih, List.replicate_succ]
    · simp only [hs]
      right; exact ⟨0, by simp, by omega⟩

theorem runAttempts_error (tiers : List Tier) (n : Nat) (s : DecodeSession)
    (le : Option Nat) (f : DecodeFailure)
    (hf : (runAttempts tiers n s le).1 = Except.error f) :
    f = DecodeFailure.exhausted
      (lastErrUpdate le (runAttempts tiers n s le).2.2) := by
  match n with
  | 0 =>
    simp only [runAttempts] at hf ⊢
    cases hf
    simp [lastErrUpdate]
  | m + 1 =>
    simp only [runAttempts] at hf ⊢
    rcases hs : (runCascade tiers s).success with _ | a
    · simp only [hs] at hf ⊢
      by_cases hm : m = 0
      · rw [if_pos hm] at hf ⊢
        cases hf
        rfl
      · rw [if_neg hm] at hf ⊢
        have ih := runAttempts_error tiers m emptySession
          (lastErrUpdate le (runCascade tiers s).errs) f hf
        rw [ih, lastErrUpdate_append]
    · simp only [hs] at hf
      exact absurd hf (by simp)

/-- C1: a tier counts as success iff it returns a non-None raster of
positive size, in which case the cascade stops and caches it; a tier that
returns None or an empty raster is passed over; a tier that raises is
caught (its error recorded) and the cascade advances to the next tier;
the empty cascade yields no success (all tiers are exhausted before the
attempt fails); and any failure `get_pixel_array` reports to the caller
is the exhaustion error, never a tier exception. -/
theorem c1_tier_success_and_recovery (t : Tier) (ts : List Tier)
    (s : DecodeSession) :
    (∀ a s2, t s = (TierOut.ret (some a), s2) → 0 < a.size →
      runCascade (t :: ts) s = ⟨some a, { s2 with pixelArray := some a }, []⟩)
    ∧ (∀ a s2, t s = (TierOut.ret (some a), s2) → a.size = 0 →
      runCascade (t :: ts) s = runCascade ts s2)
    ∧ (∀ s2, t s = (TierOut.ret none, s2) →
      runCascade (t :: ts) s = runCascade ts s2)
    ∧ (∀ e s2, t s = (TierOut.exc e, s2) →
      runCascade (t :: ts) s =
        ⟨(runCascade ts s2).success, (runCascade ts s2).sess,
          e :: (runCascade ts s2).errs⟩)
    ∧ (runCascade ([] : List Tier) s).success = none
    ∧ (∀ f, (getPixelArray (t :: ts) s).1 = Except.error f →
        ∃ le, f = DecodeFailure.exhausted le) := by
  refine ⟨?_, ?_, ?_, ?_, rfl, ?_⟩
  · intro a s2 ht hsz
    simp only [runCascade, ht]
    rw [if_pos hsz]
  · intro a s2 ht hsz
    simp only [runCascade, ht]
    rw [if_neg (by omega)]
  · intro s2 ht
    simp only [runCascade, ht]
  · intro e s2 ht
    simp only [runCascade, ht]
  · intro f hf
    simp only [getPixelArray] at hf
    rcases hp : s.pixelArray with _ | a
    · rw [hp] at hf
      exact ⟨_, runAttempts_error (t :: ts) 3 s none f hf⟩
    · rw [hp] at hf
      exact absurd hf (by simp)

/-- Always-raising tier used to exercise the recovery clauses. -/
def tierRaiseA : Tier := fun s => (TierOut.exc 5, s)

theorem c1_witness :
    runCascade [tierRaiseA] emptySession =
      ⟨(runCascade [] emptySession).success, (runCascade [] emptySession).sess,
        5 :: (runCascade [] emptySession).errs⟩ :=
  (c1_tier_success_and_recovery tierRaiseA [] emptySession).2.2.2.1
    5 emptySession rfl

/-- C2: the retry controller makes at most 3 cascade attempts; every
attempt after the first starts from the reset state (dataset and cached
pixel array both discarded, so no container handle crosses attempts);
and when all attempts fail the reported failure is the exhaustion error
carrying the last tier error observed across the whole run. -/
theorem c2_retry_bound_and_reset (tiers : List Tier) (s : DecodeSession)
    (h : s.pixelArray = none) :
    (getPixelArray tiers s).2.1.length ≤ 3
    ∧ (∀ st ∈ (getPixelArray tiers s).2.1.tail, st = emptySession)
    ∧ (∀ f, (getPixelArray tiers s).1 = Except.error f →
        f = DecodeFailure.exhausted
          ((getPixelArray tiers s).2.2.getLast?)) := by
  have hstarts := runAttempts_starts tiers 3 s none
  refine ⟨?_, ?_, ?_⟩
  · simp only [getPixelArray, h]
    rcases hstarts with hs | ⟨k, hs, hk⟩
    · simp [hs]
    · simp [hs]; omega
  · intro st hst
    simp only [getPixelArray, h] at hst
    rcases hstarts with hs | ⟨k, hs, hk⟩
    · rw [hs] at hst; simp at hst
    · rw [hs] at hst
      simp only [List.tail_cons] at hst
      exact List.eq_of_mem_replicate hst
  · intro f hf
    simp only [getPixelArray, h] at hf ⊢
    have he := runAttempts_error tiers 3 s none f hf
    rw [he]
    have : lastErrUpdate none (runAttempts tiers 3 s none).2.2 =
        (runAttempts tiers 3 s none).2.2.getLast? := by
      unfold lastErrUpdate
      rcases hg : (runAttempts tiers 3 s none).2.2.getLast? with _ | e <;> simp
    rw [this]

/-- Always-raising tier used to drive the retry controller to exhaustion. -/
def tierRaiseB : Tier := fun s => (TierOut.exc 7, s)

theorem c2_witness :
    (getPixelArray [tierRaiseB] ⟨some 4, none⟩).1 =
      Except.error (DecodeFailure.exhausted
        ((getPixelArray [tierRaiseB] ⟨some 4, none⟩).2.2.getLast?)) := by
  have h := c2_retry_bound_and_reset [tierRaiseB] ⟨some 4, none⟩ rfl
  have hf : (getPixelArray [tierRaiseB] ⟨some 4, none⟩).1 =
      Except.error (DecodeFailure.exhausted (some 7)) := rfl
  rw [hf, h.2.2 (DecodeFailure.exhausted (some 7)) hf]

/-- Abstraction of a parsed DICOM dataset for the identifier lifecycle:
the private picture-UID slot (the string element at the fixed private
group, creator and element offset) and the remaining dataset content,
opaque to the UID writer. The pydicom collaborator calls
`private_block(..., create=True)` and `block.add_new` amount to setting
the slot; an existing creator block is reused, so rewriting the slot with
the same value changes nothing. -/
structure PDataset where
  uidSlot : Option String
  other : List Nat
deriving DecidableEq

/-- State of a `DicomFile` around `write_picture_uid`: the persisted
dataset on storage, the in-memory dataset (`none` when only the header
was loaded and the full dataset must be reloaded from storage), and the
current `picture_uid` attribute. -/
structure UidSession where
  fileOnDisk : PDataset
  dataset : Option PDataset
  pictureUid : Option String
deriving DecidableEq

/-- The `write_picture_uid` method (lines 227-279): generate an
identifier if none is set (`gen` stands for the value
`generate_picture_uid` would produce); when `save` is false return the
identifier without touching the file; otherwise ensure a full in-memory
dataset (reloading from storage when absent), set the private UID slot,
and save the dataset back to storage. -/
def writePictureUid (gen : String) (save : Bool) (s : UidSession) :
    String × UidSession :=
  let uid := match s.pictureUid with
             | some u => u
             | none => gen
  if save = false then (uid, { s with pictureUid := some uid })
  else
    let ds := match s.dataset with
              | some d => d
              | none => s.fileOnDisk
    let ds2 := { ds with uidSlot := some uid }
    (uid, { fileOnDisk := ds2, dataset := some ds2, pictureUid := some uid })

/-- C8: identifier write with persistence is idempotent at the data
level: with the identifier set to `X`, the first write persists `X`, and
a second write returns the same identifier and leaves the session — in
particular the persisted file content — exactly as the first write left
it. -/
theorem c8_write_idempotent (s : UidSession) (X g g2 : String)
    (h : s.pictureUid = some X) :
    (writePictureUid g true s).1 = X
    ∧ ((writePictureUid g true s).2).fileOnDisk.uidSlot = some X
    ∧ writePictureUid g2 true (writePictureUid g true s).2 =
        (X, (writePictureUid g true s).2) := by
  refine ⟨?_, ?_, ?_⟩ <;> simp [writePictureUid, h]

/-- Session used by the C8 witness: a header-only load whose picture UID
attribute is already the string X. -/
def sessionX : UidSession := ⟨⟨none, [9, 9]⟩, none, some "X"⟩

theorem c8_witness :
    writePictureUid "g2" true (writePictureUid "g1" true sessionX).2 =
      ("X", (writePictureUid "g1" true sessionX).2) :=
  (c8_write_idempotent sessionX "X" "g1" "g2" rfl).2.2

/-- Serialized byte image of a dataset as `save_as` writes it: a marker
for the UID slot followed by the slot characters, then the remaining
content. Any injective framing suffices for the atomicity question. -/
def serializeDs (d : PDataset) : List Nat :=
  (match d.uidSlot with
   | none => [0]
   | some u => 1 :: (u.toList.map Char.toNat)) ++ d.other

/-- Outcome of the underlying file write: completes, or the process is
interrupted after `k` bytes have been written. -/
inductive WriteOutcome where
  | ok
  | failAfter (k : Nat)
deriving DecidableEq

/-- The persistence step of `write_picture_uid` (line 273:
`self.dataset.save_as(str(self.file_path))`): pydicom's `save_as` opens
the destination path itself for writing and streams the serialized
dataset into it — there is no temporary file and no atomic replace in
the source. The result is the outcome seen by the caller (the exception
propagates, nothing catches it) together with the bytes the destination
file holds afterwards: on interruption after `k` bytes, a prefix of the
new serialization. -/
def saveUidToDisk (uid : String) (ds : PDataset) (io : WriteOutcome) :
    Except Unit Unit × List Nat :=
  let bytes := serializeDs { ds with uidSlot := some uid }
  match io with
  | WriteOutcome.ok => (Except.ok (), bytes)
  | WriteOutcome.failAfter k => (Except.error (), bytes.take k)

/-- C9 counterexample: previously persisted content [0, 9, 9] (no UID
slot, payload 9, 9); writing UID "A" fails after 1 byte; the error does
propagate, but the file now holds [1] — neither the previous content nor
the complete new content, i.e. a partially-written file, contradicting
the claim that the previously persisted content is unchanged on error. -/
theorem c9_counterexample :
    serializeDs ⟨none, [9, 9]⟩ = [0, 9, 9]
    ∧ (saveUidToDisk "A" ⟨none, [9, 9]⟩ (WriteOutcome.failAfter 1)).1 =
        Except.error ()
    ∧ (saveUidToDisk "A" ⟨none, [9, 9]⟩ (WriteOutcome.failAfter 1)).2 = [1]
    ∧ ([1] : List Nat) ≠ [0, 9, 9] := by
  refine ⟨rfl, rfl, rfl, by decide⟩

/-- C9 amended: on a failed identifier write the error propagates to the
caller unswallowed, but the file is written in place: after an
interruption at `k` bytes the destination holds the first `k` bytes of
the new serialization (so the previously persisted content is not
preserved in general), and only a completed write holds the full new
content. -/
theorem c9_amended_error_propagates_write_in_place (uid : String)
    (ds : PDataset) (k : Nat) :
    (saveUidToDisk uid ds (WriteOutcome.failAfter k)).1 = Except.error ()
    ∧ (saveUidToDisk uid ds (WriteOutcome.failAfter k)).2 =
        (serializeDs { ds with uidSlot := some uid }).take k
    ∧ (saveUidToDisk uid ds WriteOutcome.ok).2 =
        serializeDs { ds with uidSlot := some uid } := by
  refine ⟨rfl, rfl, rfl⟩
